import Mathlib

/-! Verification of the S-Matrix datasource synchronization and scheduling
engine against its front-end source (api/doris.ts, DataSourceSync.vue) and,
for backend components absent from the repository snapshot, against the
design specification. -/

namespace SMatrix

/-- From src/unnamed/part_001 (one snapshot of api/doris.ts): the
schedule_type union declared by its ScheduleSyncRequest interface, the three
string literals hourly, daily, weekly. The named component
src/doris-frontend/src/components/DataSourceSync.vue offers the wider
four-value union, embedded separately as ScheduleKind. -/
inductive ScheduleType where
  | hourly
  | daily
  | weekly
deriving DecidableEq

/-- String form of a ScheduleType literal as it appears on the wire. -/
def ScheduleType.asString : ScheduleType → String
  | .hourly => "hourly"
  | .daily => "daily"
  | .weekly => "weekly"

/-- From src/unnamed/part_001: interface ScheduleSyncRequest, the typed body
of POST /api/sync/schedule as that snapshot's syncTasks.create declares it.
The named DataSourceSync.vue passes further keys in the same call, embedded
below as scheduleCreateBody. -/
structure ScheduleSyncRequest where
  datasource_id : String
  source_table : String
  target_table : Option String
  schedule_type : ScheduleType
deriving DecidableEq

/-- Field names declared by the ScheduleSyncRequest interface of
src/unnamed/part_001, in source order; target_table is the one optional
field. -/
def scheduleSyncRequestFields : List String :=
  ["datasource_id", "source_table", "target_table", "schedule_type"]

/-- JSON keys and string values of a serialized ScheduleSyncRequest body; an
absent optional target_table is omitted from the object, as axios omits
undefined fields. -/
def ScheduleSyncRequest.encodeBody (r : ScheduleSyncRequest) : List (String × String) :=
  [("datasource_id", r.datasource_id), ("source_table", r.source_table)] ++
    (match r.target_table with
      | some t => [("target_table", t)]
      | none => []) ++
    [("schedule_type", r.schedule_type.asString)]

/-- From src: the dorisApi.syncTasks methods the front-end invokes. create,
list and delete are declared by the unnamed api client
(src/unnamed/part_001) and called from the unnamed DataSourceSync.vue
snapshot; update and toggleAI are invoked by the named
src/doris-frontend/src/components/DataSourceSync.vue in saveScheduleConfig
and toggleTableAI. -/
def syncTasksCalls : List String :=
  ["create", "list", "delete", "update", "toggleAI"]

/-- From src/doris-frontend/src/components/DataSourceSync.vue: the
schedule_type radio group of the sync-strategy dialog offers hourly, daily,
weekly and monthly (day-of-month choices capped at 28). -/
inductive ScheduleKind where
  | hourly
  | daily
  | weekly
  | monthly
deriving DecidableEq

/-- String value of a schedule_type radio choice as it is sent. -/
def ScheduleKind.asString : ScheduleKind → String
  | .hourly => "hourly"
  | .daily => "daily"
  | .weekly => "weekly"
  | .monthly => "monthly"

/-- From src/doris-frontend/src/components/DataSourceSync.vue: the
scheduleForm state backing the sync-strategy dialog. -/
structure ScheduleConfigForm where
  schedule_type : ScheduleKind
  schedule_minute : Nat
  schedule_hour : Nat
  schedule_day_of_week : Nat
  schedule_day_of_month : Nat
  enabled_for_ai : Bool
deriving DecidableEq

/-- A JSON field value of the schedule bodies: string, number or boolean. -/
inductive FieldVal where
  | s (v : String)
  | n (v : Nat)
  | b (v : Bool)
deriving DecidableEq

/-- From src/doris-frontend/src/components/DataSourceSync.vue
saveScheduleConfig: the body of the syncTasks.create call issued when no task
exists for the table yet, with its keys in source order. -/
def scheduleCreateBody (dsId sourceTable : String) (f : ScheduleConfigForm) :
    List (String × FieldVal) :=
  [("datasource_id", FieldVal.s dsId),
   ("source_table", FieldVal.s sourceTable),
   ("schedule_type", FieldVal.s f.schedule_type.asString),
   ("schedule_minute", FieldVal.n f.schedule_minute),
   ("schedule_hour", FieldVal.n f.schedule_hour),
   ("schedule_day_of_week", FieldVal.n f.schedule_day_of_week),
   ("schedule_day_of_month", FieldVal.n f.schedule_day_of_month),
   ("enabled_for_ai", FieldVal.b f.enabled_for_ai)]

/-- From src DataSourceSync.vue: the datasource form state (name, host, port,
user, password, database). -/
structure DataSourceForm where
  name : String
  host : String
  port : Nat
  user : String
  password : String
  database : String
deriving DecidableEq

/-- From src DataSourceSync.vue saveDataSource: when name or database is the
empty string (TS falsy) a warning is shown and no save request is issued;
otherwise the whole form is posted as the save request. -/
def saveDataSource (f : DataSourceForm) : Option DataSourceForm :=
  if f.name = "" ∨ f.database = "" then none else some f

/-- From src DataSourceSync.vue template: the save button carries
disabled bound to the negation of formState.database, which is truthy exactly
when the database string is empty. -/
def saveButtonDisabled (f : DataSourceForm) : Bool :=
  f.database == ""

/-- Modelled from the spec: the DataSource Registry Save operation is backend
code absent from src (only its front-end caller is present). Save rejects a
profile missing a chosen database and does not re-validate the connection;
the second component counts the Connection Tester invocations Save makes. -/
def registrySave (profile : DataSourceForm) : Except String String × Nat :=
  (if profile.database = "" then Except.error "missing database"
   else Except.ok profile.name, 0)

/-- From src DataSourceSync.vue startSync, scheduled branch: iterate the
selected tables, issuing one syncTasks.create request per table carrying only
datasource_id, source_table and schedule_type (no target_table); a failed
creation (outcome false, the catch branch) is logged and the loop continues
with the next table. Returns the requests issued and successCount. -/
def startSyncScheduled (dsId : String) (sched : ScheduleType)
    (outcome : ScheduleSyncRequest → Bool) :
    List String → List ScheduleSyncRequest × Nat
  | [] => ([], 0)
  | t :: rest =>
    ({ datasource_id := dsId, source_table := t, target_table := none,
       schedule_type := sched } :: (startSyncScheduled dsId sched outcome rest).1,
     if outcome { datasource_id := dsId, source_table := t, target_table := none,
                  schedule_type := sched }
     then (startSyncScheduled dsId sched outcome rest).2 + 1
     else (startSyncScheduled dsId sched outcome rest).2)

/-- From src DataSourceSync.vue startSync, scheduled branch: the reported
syncResult.success is successCount being positive. -/
def startSyncScheduledSuccess (dsId : String) (sched : ScheduleType)
    (outcome : ScheduleSyncRequest → Bool) (tables : List String) : Bool :=
  decide (0 < (startSyncScheduled dsId sched outcome tables).2)

/-- A copied row, as an ordered list of cell values. -/
abbrev Row := List String

/-- The warehouse, as an association of target table names to loaded rows. -/
abbrev Warehouse := List (String × List Row)

/-- Rows currently held by a warehouse table, if the table exists. -/
def whGet : Warehouse → String → Option (List Row)
  | [], _ => none
  | p :: rest, t => if p.1 = t then some p.2 else whGet rest t

/-- Truncate-and-reload a warehouse table, creating it if absent. -/
def whSet : Warehouse → String → List Row → Warehouse
  | [], t, rows => [(t, rows)]
  | p :: rest, t, rows =>
    if p.1 = t then (p.1, rows) :: rest else p :: whSet rest t rows

/-- Per-table sync outcome, from the spec data model (which the front-end
reads back as results entries of the sync-multiple response). -/
structure SyncResult where
  source_table : String
  target_table : String
  success : Bool
  rows_synced : Nat
  error : Option String
deriving DecidableEq

/-- Aggregate outcome of a batch sync, from the spec data model (read back by
the front-end as success, success_count, fail_count, results). -/
structure BatchSyncResult where
  success : Bool
  success_count : Nat
  fail_count : Nat
  results : List SyncResult
deriving DecidableEq

/-- Result and post-state of one Sync Executor invocation. -/
structure SyncStep where
  result : SyncResult
  wh : Warehouse
deriving DecidableEq

/-- Modelled from the spec: the Sync Executor SyncOne is backend code absent
from src. A table sync is atomic: on success the target is
truncate-and-reloaded from the remote rows and rows_synced is their count; on
failure the warehouse is untouched and the partial row count discarded. The
remote argument gives a failing table's lookup as none. -/
def syncOne (remote : String → Option (List Row)) (wh : Warehouse)
    (sourceTable targetTable : String) : SyncStep :=
  match remote sourceTable with
  | some rows =>
    { result := { source_table := sourceTable, target_table := targetTable,
                  success := true, rows_synced := rows.length, error := none },
      wh := whSet wh targetTable rows }
  | none =>
    { result := { source_table := sourceTable, target_table := targetTable,
                  success := false, rows_synced := 0,
                  error := some "sync failed" },
      wh := wh }

/-- Target table of a batch request entry: the explicit target, defaulting to
the source name. -/
def resolveTarget (p : String × Option String) : String :=
  p.2.getD p.1

/-- Accumulator of the Batch Sync Coordinator loop. -/
structure BatchAcc where
  success_count : Nat
  fail_count : Nat
  allOk : Bool
  results : List SyncResult
  wh : Warehouse

/-- Modelled from the spec: the Batch Sync Coordinator loop is backend code
absent from src. It invokes the Sync Executor once per requested table in
request order, threading the warehouse, counting successes and failures and
collecting per-table results in order. -/
def batchLoop (remote : String → Option (List Row)) :
    Warehouse → List (String × Option String) → BatchAcc
  | wh, [] => { success_count := 0, fail_count := 0, allOk := true,
                results := [], wh := wh }
  | wh, p :: rest =>
    { success_count :=
        if (syncOne remote wh p.1 (resolveTarget p)).result.success
        then (batchLoop remote (syncOne remote wh p.1 (resolveTarget p)).wh rest).success_count + 1
        else (batchLoop remote (syncOne remote wh p.1 (resolveTarget p)).wh rest).success_count,
      fail_count :=
        if (syncOne remote wh p.1 (resolveTarget p)).result.success
        then (batchLoop remote (syncOne remote wh p.1 (resolveTarget p)).wh rest).fail_count
        else (batchLoop remote (syncOne remote wh p.1 (resolveTarget p)).wh rest).fail_count + 1,
      allOk := (syncOne remote wh p.1 (resolveTarget p)).result.success &&
        (batchLoop remote (syncOne remote wh p.1 (resolveTarget p)).wh rest).allOk,
      results := (syncOne remote wh p.1 (resolveTarget p)).result ::
        (batchLoop remote (syncOne remote wh p.1 (resolveTarget p)).wh rest).results,
      wh := (batchLoop remote (syncOne remote wh p.1 (resolveTarget p)).wh rest).wh }

/-- Modelled from the spec: SyncMultiple, the Batch Sync Coordinator entry
point, aggregating the loop accumulator into a BatchSyncResult next to the
final warehouse. -/
def syncMultiple (remote : String → Option (List Row)) (wh : Warehouse)
    (tables : List (String × Option String)) : BatchSyncResult × Warehouse :=
  ({ success := (batchLoop remote wh tables).allOk,
     success_count := (batchLoop remote wh tables).success_count,
     fail_count := (batchLoop remote wh tables).fail_count,
     results := (batchLoop remote wh tables).results },
   (batchLoop remote wh tables).wh)

/-- Wall-clock minute, resolved to the fields a recurrence descriptor can
constrain. -/
structure TimePoint where
  dayOfMonth : Nat
  dayOfWeek : Nat
  hour : Nat
  minute : Nat
deriving DecidableEq

/-- Modelled from the spec: the recurrence descriptor of a SyncTask, a tagged
variant with one case per cadence (the backend scheduler is absent from src).
Day-of-month is capped at 28 by policy; the cap is enforced at task creation
and does not affect the firing rule. -/
inductive Recurrence where
  | hourly (minute : Nat)
  | daily (hour minute : Nat)
  | weekly (dayOfWeek hour minute : Nat)
  | monthly (dayOfMonth hour minute : Nat)
deriving DecidableEq

/-- Modelled from the spec: a recurrence descriptor matches a wall-clock
minute when every field it constrains agrees. -/
def Recurrence.matchesAt : Recurrence → TimePoint → Bool
  | .hourly m, t => t.minute == m
  | .daily h m, t => t.hour == h && t.minute == m
  | .weekly d h m, t => t.dayOfWeek == d && t.hour == h && t.minute == m
  | .monthly d h m, t => t.dayOfMonth == d && t.hour == h && t.minute == m

/-- Execution state of one task as the clock loop sees it. -/
inductive TaskState where
  | idle
  | running
deriving DecidableEq

/-- Modelled from the spec: one poll of the clock loop for a single task. An
Idle task whose descriptor matches the current minute fires and becomes
Running; a Running task is skipped for this occurrence, nothing is queued,
and it returns to Idle only once its sync completes (the complete flag).
Returns the next state and whether the task fired. -/
def tick (r : Recurrence) (complete : Bool) (now : TimePoint) :
    TaskState → TaskState × Bool
  | .idle =>
    if r.matchesAt now then (.running, true) else (.idle, false)
  | .running =>
    (if complete then .idle else .running, false)

/-- Modelled from the spec: the clock loop over a sequence of polled minutes,
each paired with whether a running sync completed before that poll. Returns
the minutes at which the task fired. -/
def schedulerRun (r : Recurrence) :
    TaskState → List (TimePoint × Bool) → List TimePoint
  | _, [] => []
  | st, tb :: rest =>
    (if (tick r tb.2 tb.1 st).2 then [tb.1] else []) ++
      schedulerRun r (tick r tb.2 tb.1 st).1 rest

/-- Modelled from the spec: a persisted recurring sync task. -/
structure SyncTask where
  id : Nat
  datasource_id : String
  source_table : String
  target_table : String
  recurrence : Recurrence
  enabled_for_ai : Bool
  last_run : Option SyncResult
deriving DecidableEq

/-- The identity triple of a sync task. -/
def SyncTask.triple (t : SyncTask) : String × String × String :=
  (t.datasource_id, t.source_table, t.target_table)

/-- Modelled from the spec: the Sync Task Scheduler Create operation, backend
code absent from src. Creating a task whose (datasource, source_table,
target_table) triple equals an existing task's triple updates that task in
place (keeping its id) instead of appending a second schedule. -/
def createTask (tasks : List SyncTask) (d : SyncTask) : List SyncTask :=
  if ∃ t ∈ tasks, t.triple = d.triple then
    tasks.map (fun t => if t.triple = d.triple then { d with id := t.id } else t)
  else
    tasks ++ [d]

/-- Modelled from the spec: the Sync Task Scheduler ToggleAI operation,
backend code absent from src (its front-end caller is
src/doris-frontend/src/components/DataSourceSync.vue toggleTableAI). A fast
path that only flips enabled_for_ai on the task with the given id; identity,
recurrence and last-run state stay untouched and no run is triggered. -/
def toggleAITask (tasks : List SyncTask) (id : Nat) (b : Bool) :
    List SyncTask :=
  tasks.map (fun t => if t.id = id then { t with enabled_for_ai := b } else t)

/-- Modelled from the spec: the Sync Task Scheduler Update operation,
replacing the definition of the task with the given id while keeping that
id. -/
def updateTask (tasks : List SyncTask) (id : Nat) (d : SyncTask) :
    List SyncTask :=
  tasks.map (fun t => if t.id = id then { d with id := t.id } else t)

/-- Modelled from the spec: the Sync Task Scheduler Delete operation. -/
def deleteTask (tasks : List SyncTask) (id : Nat) : List SyncTask :=
  tasks.filter (fun t => t.id != id)

/-- Modelled from the spec: the Sync Task Scheduler List operation, returning
the persisted tasks. -/
def listTasks (tasks : List SyncTask) : List SyncTask :=
  tasks

/-- Modelled from the spec: a Table Metadata Registry entry, keyed by
warehouse table name, with a user-owned description next to the system-owned
auto_description. -/
structure TableMetadataEntry where
  table_name : String
  display_name : String
  description : String
  auto_description : String
  source_type : String
  analyzed_at : Nat
deriving DecidableEq

/-- Modelled from the spec: the refresh a completed sync applies to an
existing metadata entry: auto_description and analyzed_at are renewed, every
other field is kept. -/
def refreshOnSync (e : TableMetadataEntry) (newAuto : String) (now : Nat) :
    TableMetadataEntry :=
  { e with auto_description := newAuto, analyzed_at := now }

/-- Modelled from the spec: the Table Metadata Registry update run when a sync
of a table completes, backend code absent from src. An existing entry for the
table is refreshed in place; otherwise a fresh entry is created with an empty
user description and source_type database_sync. -/
def metadataOnSyncComplete (reg : List TableMetadataEntry)
    (table newAuto : String) (now : Nat) : List TableMetadataEntry :=
  if ∃ e ∈ reg, e.table_name = table then
    reg.map (fun e => if e.table_name = table then refreshOnSync e newAuto now else e)
  else
    reg ++ [{ table_name := table, display_name := table, description := "",
              auto_description := newAuto, source_type := "database_sync",
              analyzed_at := now }]

/-- A concrete remote source for evaluation: table B holds one row, table C
two rows, every other table fails to sync. -/
def demoRemote (s : String) : Option (List Row) :=
  if s = "B" then some [["b1"]]
  else if s = "C" then some [["c1"], ["c2"]]
  else none

/-- A concrete batch request over tables A, B, C with default targets. -/
def demoTables : List (String × Option String) :=
  [("A", none), ("B", none), ("C", none)]

/-- A concrete pre-call warehouse holding an older copy of table A. -/
def demoWh : Warehouse :=
  [("A", [["old"]])]

/-- A concrete sync task for evaluation. -/
def demoTask1 : SyncTask :=
  { id := 1, datasource_id := "ds", source_table := "t1", target_table := "t1",
    recurrence := Recurrence.daily 3 0, enabled_for_ai := false, last_run := none }

/-- A second concrete sync task with a different triple. -/
def demoTask2 : SyncTask :=
  { id := 2, datasource_id := "ds", source_table := "t2", target_table := "t2",
    recurrence := Recurrence.daily 3 0, enabled_for_ai := false, last_run := none }

/-- A task definition sharing demoTask1's triple but with a new recurrence. -/
def demoDup : SyncTask :=
  { id := 9, datasource_id := "ds", source_table := "t1", target_table := "t1",
    recurrence := Recurrence.hourly 30, enabled_for_ai := true, last_run := none }

/-- A concrete metadata entry with a user-supplied description. -/
def demoMeta : TableMetadataEntry :=
  { table_name := "orders", display_name := "Orders", description := "user written",
    auto_description := "old auto", source_type := "database_sync", analyzed_at := 10 }

/-! Theorems. -/

/-- Claim C2: the body the front-end's syncTasks.create sends to
POST /api/sync/schedule carries datasource_id, source_table, schedule_type,
schedule_minute, schedule_hour, schedule_day_of_week, schedule_day_of_month
and enabled_for_ai; target_table is the declared optional field, omitted from
this body; and the schedule_type value may be any of hourly, daily, weekly,
monthly. -/
theorem C2_schedule_request_fields (dsId sourceTable : String)
    (f : ScheduleConfigForm) :
    ((scheduleCreateBody dsId sourceTable f).map Prod.fst =
      ["datasource_id", "source_table", "schedule_type", "schedule_minute",
       "schedule_hour", "schedule_day_of_week", "schedule_day_of_month",
       "enabled_for_ai"]) ∧
    ("target_table" ∈ scheduleSyncRequestFields ∧
      "target_table" ∉ (scheduleCreateBody dsId sourceTable f).map Prod.fst) ∧
    (f.schedule_type.asString = "hourly" ∨ f.schedule_type.asString = "daily" ∨
      f.schedule_type.asString = "weekly" ∨
      f.schedule_type.asString = "monthly") ∧
    (∀ s ∈ (["hourly", "daily", "weekly", "monthly"] : List String),
      ∃ k : ScheduleKind, ScheduleKind.asString k = s) := by
  refine ⟨rfl, ⟨by decide, ?_⟩, ?_, ?_⟩
  · rw [show (scheduleCreateBody dsId sourceTable f).map Prod.fst =
      ["datasource_id", "source_table", "schedule_type", "schedule_minute",
       "schedule_hour", "schedule_day_of_week", "schedule_day_of_month",
       "enabled_for_ai"] from rfl]
    decide
  · cases f.schedule_type <;> simp [ScheduleKind.asString]
  · intro s hs
    simp only [List.mem_cons, List.not_mem_nil, or_false] at hs
    rcases hs with h | h | h | h
    · exact ⟨ScheduleKind.hourly, by rw [h]; rfl⟩
    · exact ⟨ScheduleKind.daily, by rw [h]; rfl⟩
    · exact ⟨ScheduleKind.weekly, by rw [h]; rfl⟩
    · exact ⟨ScheduleKind.monthly, by rw [h]; rfl⟩

/-- Claim C3: the front-end makes the sync-task calls create, list, update
and toggleAI; scheduler-side ToggleAI flips only enabled_for_ai — identity
triples, recurrences, ids and last-run state (so no triggered run) are all
untouched, and the targeted task reappears with the new flag; Update keeps
task ids, Delete removes the id, List returns the persisted tasks. -/
theorem C3_sync_task_surface (tasks : List SyncTask) (id : Nat) (b : Bool)
    (d : SyncTask) :
    ("create" ∈ syncTasksCalls ∧ "list" ∈ syncTasksCalls ∧
      "update" ∈ syncTasksCalls ∧ "toggleAI" ∈ syncTasksCalls) ∧
    ((toggleAITask tasks id b).map SyncTask.triple =
        tasks.map SyncTask.triple ∧
      (toggleAITask tasks id b).map SyncTask.recurrence =
        tasks.map SyncTask.recurrence ∧
      (toggleAITask tasks id b).map SyncTask.last_run =
        tasks.map SyncTask.last_run ∧
      (toggleAITask tasks id b).map SyncTask.id = tasks.map SyncTask.id) ∧
    (∀ t ∈ tasks, t.id = id →
      { t with enabled_for_ai := b } ∈ toggleAITask tasks id b) ∧
    ((updateTask tasks id d).map SyncTask.id = tasks.map SyncTask.id) ∧
    (∀ t ∈ deleteTask tasks id, t.id ≠ id) ∧
    listTasks tasks = tasks := by
  refine ⟨⟨by decide, by decide, by decide, by decide⟩, ⟨?_, ?_, ?_, ?_⟩,
    ?_, ?_, ?_, rfl⟩
  · rw [toggleAITask, List.map_map]
    congr 1
    funext t
    show SyncTask.triple
      (if t.id = id then { t with enabled_for_ai := b } else t) = t.triple
    by_cases ht : t.id = id
    · rw [if_pos ht]
      rfl
    · rw [if_neg ht]
  · rw [toggleAITask, List.map_map]
    congr 1
    funext t
    show SyncTask.recurrence
      (if t.id = id then { t with enabled_for_ai := b } else t) = t.recurrence
    by_cases ht : t.id = id
    · rw [if_pos ht]
    · rw [if_neg ht]
  · rw [toggleAITask, List.map_map]
    congr 1
    funext t
    show SyncTask.last_run
      (if t.id = id then { t with enabled_for_ai := b } else t) = t.last_run
    by_cases ht : t.id = id
    · rw [if_pos ht]
    · rw [if_neg ht]
  · rw [toggleAITask, List.map_map]
    congr 1
    funext t
    show SyncTask.id
      (if t.id = id then { t with enabled_for_ai := b } else t) = t.id
    by_cases ht : t.id = id
    · rw [if_pos ht]
    · rw [if_neg ht]
  · intro t ht hid
    rw [toggleAITask]
    have hft : (if t.id = id then { t with enabled_for_ai := b } else t) =
        { t with enabled_for_ai := b } := if_pos hid
    rw [← hft]
    exact List.mem_map_of_mem _ ht
  · rw [updateTask, List.map_map]
    congr 1
    funext t
    show SyncTask.id (if t.id = id then { d with id := t.id } else t) = t.id
    by_cases ht : t.id = id
    · rw [if_pos ht]
    · rw [if_neg ht]
  · intro t ht
    rcases List.mem_filter.mp ht with ⟨_, hp⟩
    simpa using hp

/-- Claim C9: Registry Save rejects a profile whose database is unset and
makes no Connection Tester call; the front-end saveDataSource issues no save
request when name or database is empty, and the save button is disabled while
no database is chosen. -/
theorem C9_save_rejects_missing_database (f : DataSourceForm) :
    (f.database = "" → (registrySave f).1 = Except.error "missing database") ∧
    (registrySave f).2 = 0 ∧
    (f.name = "" ∨ f.database = "" → saveDataSource f = none) ∧
    (f.database = "" → saveButtonDisabled f = true) := by
  refine ⟨fun h => ?_, rfl, fun h => ?_, fun h => ?_⟩
  · simp [registrySave, h]
  · unfold saveDataSource
    rw [if_pos h]
  · simp [saveButtonDisabled, h]

/-- Witness for C9 at concrete profiles: one missing the database, one missing
the name. -/
theorem C9_witness :
    (registrySave ⟨"n", "h", 3306, "u", "p", ""⟩).1 =
      Except.error "missing database" ∧
    saveDataSource ⟨"", "h", 3306, "u", "p", "db"⟩ = none ∧
    saveButtonDisabled ⟨"n", "h", 3306, "u", "p", ""⟩ = true := by
  have h1 := C9_save_rejects_missing_database ⟨"n", "h", 3306, "u", "p", ""⟩
  have h2 := C9_save_rejects_missing_database ⟨"", "h", 3306, "u", "p", "db"⟩
  exact ⟨h1.1 rfl, h2.2.2.1 (Or.inl rfl), h1.2.2.2 rfl⟩

/-- The scheduled branch of startSync issues one request per selected table,
in order, regardless of outcomes. -/
theorem startSyncScheduled_requests (dsId : String) (sched : ScheduleType)
    (outcome : ScheduleSyncRequest → Bool) (tables : List String) :
    (startSyncScheduled dsId sched outcome tables).1 =
      tables.map (fun t => (⟨dsId, t, none, sched⟩ : ScheduleSyncRequest)) := by
  induction tables with
  | nil => rfl
  | cons t rest ih => simp [startSyncScheduled, ih]

/-- The successCount of the scheduled branch is positive exactly when some
creation succeeded. -/
theorem startSyncScheduled_pos (dsId : String) (sched : ScheduleType)
    (outcome : ScheduleSyncRequest → Bool) (tables : List String) :
    0 < (startSyncScheduled dsId sched outcome tables).2 ↔
      ∃ t ∈ tables, outcome (⟨dsId, t, none, sched⟩ : ScheduleSyncRequest) = true := by
  induction tables with
  | nil => simp [startSyncScheduled]
  | cons t rest ih =>
    simp only [startSyncScheduled]
    by_cases h : outcome (⟨dsId, t, none, sched⟩ : ScheduleSyncRequest) = true
    · simp [h]
    · simp [h, ih]

/-- Claim C10: under scheduled mode, startSync issues exactly one
syncTasks.create per selected table in order, each carrying no target_table
and only the keys datasource_id, source_table, schedule_type; the set of
requests issued does not depend on which creations fail; and the reported
success flag is true exactly when at least one creation succeeded. -/
theorem C10_scheduled_branch (dsId : String) (sched : ScheduleType)
    (outcome : ScheduleSyncRequest → Bool) (tables : List String)
    (h : tables ≠ []) :
    ((startSyncScheduled dsId sched outcome tables).1.map
      ScheduleSyncRequest.source_table = tables) ∧
    (∀ r ∈ (startSyncScheduled dsId sched outcome tables).1,
      r.datasource_id = dsId ∧ r.target_table = none ∧
        r.schedule_type = sched ∧
        r.encodeBody.map Prod.fst =
          ["datasource_id", "source_table", "schedule_type"]) ∧
    (∀ outcome2, (startSyncScheduled dsId sched outcome2 tables).1 =
      (startSyncScheduled dsId sched outcome tables).1) ∧
    (startSyncScheduledSuccess dsId sched outcome tables = true ↔
      ∃ t ∈ tables,
        outcome (⟨dsId, t, none, sched⟩ : ScheduleSyncRequest) = true) := by
  refine ⟨?_, ?_, ?_, ?_⟩
  · rw [startSyncScheduled_requests, List.map_map]
    have hcomp : (ScheduleSyncRequest.source_table ∘ fun t =>
        (⟨dsId, t, none, sched⟩ : ScheduleSyncRequest)) = id := by
      funext t
      rfl
    rw [hcomp, List.map_id]
  · intro r hr
    rw [startSyncScheduled_requests] at hr
    rcases List.mem_map.mp hr with ⟨t, ht, hteq⟩
    subst hteq
    exact ⟨rfl, rfl, rfl, by simp [ScheduleSyncRequest.encodeBody]⟩
  · intro outcome2
    rw [startSyncScheduled_requests, startSyncScheduled_requests]
  · unfold startSyncScheduledSuccess
    rw [decide_eq_true_eq]
    exact startSyncScheduled_pos dsId sched outcome tables

/-- Witness for C10 on the selection A, B where only the creation for B
succeeds. -/
theorem C10_witness :
    (["A", "B"] : List String) ≠ [] ∧
    ((startSyncScheduled "ds" ScheduleType.daily
        (fun r => r.source_table == "B") ["A", "B"]).1.map
      ScheduleSyncRequest.source_table = ["A", "B"]) ∧
    startSyncScheduledSuccess "ds" ScheduleType.daily
      (fun r => r.source_table == "B") ["A", "B"] = true := by
  have h := C10_scheduled_branch "ds" ScheduleType.daily
    (fun r => r.source_table == "B") ["A", "B"] (by decide)
  exact ⟨by decide, h.1, h.2.2.2.mpr ⟨"B", by decide, by decide⟩⟩

/-- Reading back the table just set yields the rows just loaded. -/
theorem whGet_whSet_self (wh : Warehouse) (t : String) (rows : List Row) :
    whGet (whSet wh t rows) t = some rows := by
  induction wh with
  | nil => simp [whSet, whGet]
  | cons p rest ih =>
    by_cases h : p.1 = t
    · simp [whSet, whGet, h]
    · simp [whSet, whGet, h, ih]

/-- Setting one table leaves every other table's contents unchanged. -/
theorem whGet_whSet_ne (wh : Warehouse) (t : String) (rows : List Row)
    (t2 : String) (h : t2 ≠ t) :
    whGet (whSet wh t rows) t2 = whGet wh t2 := by
  have h3 : ¬ t = t2 := fun he => h he.symm
  induction wh with
  | nil => simp [whSet, whGet, h3]
  | cons p rest ih =>
    by_cases h1 : p.1 = t
    · simp [whSet, whGet, h1, h3]
    · by_cases h2 : p.1 = t2
      · simp [whSet, whGet, h1, h2, h, ih]
      · simp [whSet, whGet, h1, h2, ih]

/-- Reloading a table with the same rows is a fixed point. -/
theorem whSet_whSet_self (wh : Warehouse) (t : String) (rows : List Row) :
    whSet (whSet wh t rows) t rows = whSet wh t rows := by
  induction wh with
  | nil => simp [whSet]
  | cons p rest ih =>
    by_cases h : p.1 = t
    · simp [whSet, h]
    · simp [whSet, h, ih]

/-- A sync succeeds exactly when the remote lookup of its source does. -/
theorem syncOne_success (remote : String → Option (List Row)) (wh : Warehouse)
    (s tgt : String) :
    (syncOne remote wh s tgt).result.success = (remote s).isSome := by
  cases h : remote s <;> simp [syncOne, h]

/-- The result echoes the requested source table. -/
theorem syncOne_source_table (remote : String → Option (List Row))
    (wh : Warehouse) (s tgt : String) :
    (syncOne remote wh s tgt).result.source_table = s := by
  cases h : remote s <;> simp [syncOne, h]

/-- The result echoes the requested target table. -/
theorem syncOne_target_table (remote : String → Option (List Row))
    (wh : Warehouse) (s tgt : String) :
    (syncOne remote wh s tgt).result.target_table = tgt := by
  cases h : remote s <;> simp [syncOne, h]

/-- A failing sync leaves the warehouse untouched. -/
theorem syncOne_wh_none (remote : String → Option (List Row)) (wh : Warehouse)
    (s tgt : String) (h : remote s = none) :
    (syncOne remote wh s tgt).wh = wh := by
  simp [syncOne, h]

/-- A succeeding sync truncate-and-reloads exactly its target table. -/
theorem syncOne_wh_some (remote : String → Option (List Row)) (wh : Warehouse)
    (s tgt : String) (rows : List Row) (h : remote s = some rows) :
    (syncOne remote wh s tgt).wh = whSet wh tgt rows := by
  simp [syncOne, h]

/-- Claim C8: re-running SyncOne for the same source and target with the
remote data unchanged yields the same result (in particular the same
rows_synced) and the same warehouse as the first run: observably one clean
load. -/
theorem C8_syncOne_idempotent (remote : String → Option (List Row))
    (wh : Warehouse) (s tgt : String) :
    ((syncOne remote (syncOne remote wh s tgt).wh s tgt).result.rows_synced =
      (syncOne remote wh s tgt).result.rows_synced) ∧
    ((syncOne remote (syncOne remote wh s tgt).wh s tgt).result =
      (syncOne remote wh s tgt).result) ∧
    ((syncOne remote (syncOne remote wh s tgt).wh s tgt).wh =
      (syncOne remote wh s tgt).wh) := by
  cases h : remote s with
  | none => simp [syncOne, h]
  | some rows => simp [syncOne, h, whSet_whSet_self]

/-- The coordinator's results list the requested tables, resolved targets
included, in request order. -/
theorem batchLoop_results (remote : String → Option (List Row))
    (wh : Warehouse) (ts : List (String × Option String)) :
    (batchLoop remote wh ts).results.map
      (fun r => (r.source_table, r.target_table)) =
    ts.map (fun p => (p.1, resolveTarget p)) := by
  induction ts generalizing wh with
  | nil => rfl
  | cons p rest ih =>
    simp [batchLoop, ih, syncOne_source_table, syncOne_target_table]

/-- The accumulated success_count counts the succeeded results. -/
theorem batchLoop_success_count (remote : String → Option (List Row))
    (wh : Warehouse) (ts : List (String × Option String)) :
    (batchLoop remote wh ts).success_count =
      ((batchLoop remote wh ts).results.filter (fun r => r.success)).length := by
  induction ts generalizing wh with
  | nil => rfl
  | cons p rest ih =>
    by_cases h : (syncOne remote wh p.1 (resolveTarget p)).result.success
    · simp [batchLoop, List.filter_cons, h, ih]
    · simp [batchLoop, List.filter_cons, h, ih]

/-- The accumulated fail_count counts the failed results. -/
theorem batchLoop_fail_count (remote : String → Option (List Row))
    (wh : Warehouse) (ts : List (String × Option String)) :
    (batchLoop remote wh ts).fail_count =
      ((batchLoop remote wh ts).results.filter (fun r => !r.success)).length := by
  induction ts generalizing wh with
  | nil => rfl
  | cons p rest ih =>
    by_cases h : (syncOne remote wh p.1 (resolveTarget p)).result.success
    · simp [batchLoop, List.filter_cons, h, ih]
    · simp [batchLoop, List.filter_cons, h, ih]

/-- The accumulated overall flag is the conjunction of the member results. -/
theorem batchLoop_allOk (remote : String → Option (List Row)) (wh : Warehouse)
    (ts : List (String × Option String)) :
    (batchLoop remote wh ts).allOk =
      (batchLoop remote wh ts).results.all (fun r => r.success) := by
  induction ts generalizing wh with
  | nil => rfl
  | cons p rest ih => simp [batchLoop, List.all_cons, ih]

/-- Claim C1: the BatchSyncResult of every batch request has success true iff
every member result succeeded, success_count and fail_count counting the
succeeded and failed members, and per-table results ordered as the request
orders its tables. -/
theorem C1_batch_aggregation (remote : String → Option (List Row))
    (wh : Warehouse) (tables : List (String × Option String)) :
    ((syncMultiple remote wh tables).1.success = true ↔
      ∀ r ∈ (syncMultiple remote wh tables).1.results, r.success = true) ∧
    ((syncMultiple remote wh tables).1.success_count =
      ((syncMultiple remote wh tables).1.results.filter
        (fun r => r.success)).length) ∧
    ((syncMultiple remote wh tables).1.fail_count =
      ((syncMultiple remote wh tables).1.results.filter
        (fun r => !r.success)).length) ∧
    ((syncMultiple remote wh tables).1.results.map
        (fun r => (r.source_table, r.target_table)) =
      tables.map (fun p => (p.1, resolveTarget p))) := by
  refine ⟨?_, ?_, ?_, ?_⟩
  · show (batchLoop remote wh tables).allOk = true ↔ _
    rw [batchLoop_allOk, List.all_eq_true]
    exact Iff.rfl
  · exact batchLoop_success_count remote wh tables
  · exact batchLoop_fail_count remote wh tables
  · exact batchLoop_results remote wh tables

/-- A batch touching none of the given target leaves that target's contents
unchanged. -/
theorem batchLoop_wh_untouched (remote : String → Option (List Row))
    (wh : Warehouse) (ts : List (String × Option String)) (tgt : String)
    (h : tgt ∉ ts.map resolveTarget) :
    whGet (batchLoop remote wh ts).wh tgt = whGet wh tgt := by
  induction ts generalizing wh with
  | nil => rfl
  | cons p rest ih =>
    simp only [List.map_cons, List.mem_cons, not_or] at h
    show whGet (batchLoop remote (syncOne remote wh p.1 (resolveTarget p)).wh
      rest).wh tgt = whGet wh tgt
    rw [ih _ h.2]
    cases hr : remote p.1 with
    | none => rw [syncOne_wh_none remote wh p.1 (resolveTarget p) hr]
    | some rows =>
      rw [syncOne_wh_some remote wh p.1 (resolveTarget p) rows hr,
        whGet_whSet_ne wh (resolveTarget p) rows tgt h.1]

/-- The fail_count counts the request entries whose remote lookup fails. -/
theorem batchLoop_fail_countP (remote : String → Option (List Row))
    (wh : Warehouse) (ts : List (String × Option String)) :
    (batchLoop remote wh ts).fail_count =
      ts.countP (fun p => (remote p.1).isNone) := by
  induction ts generalizing wh with
  | nil => rfl
  | cons p rest ih =>
    cases hr : remote p.1 <;>
      simp [batchLoop, List.countP_cons, syncOne_success, hr, ih]

/-- The success_count counts the request entries whose remote lookup
succeeds. -/
theorem batchLoop_success_countP (remote : String → Option (List Row))
    (wh : Warehouse) (ts : List (String × Option String)) :
    (batchLoop remote wh ts).success_count =
      ts.countP (fun p => (remote p.1).isSome) := by
  induction ts generalizing wh with
  | nil => rfl
  | cons p rest ih =>
    cases hr : remote p.1 <;>
      simp [batchLoop, List.countP_cons, syncOne_success, hr, ih]

/-- Each entry of a batch over pairwise distinct targets ends with its target
holding its own remote rows on success and its pre-call contents on
failure. -/
theorem batchLoop_wh_spec (remote : String → Option (List Row))
    (wh : Warehouse) (ts : List (String × Option String))
    (hnd : (ts.map resolveTarget).Nodup) :
    ∀ p ∈ ts,
      (∀ rows, remote p.1 = some rows →
        whGet (batchLoop remote wh ts).wh (resolveTarget p) = some rows) ∧
      (remote p.1 = none →
        whGet (batchLoop remote wh ts).wh (resolveTarget p) =
          whGet wh (resolveTarget p)) := by
  induction ts generalizing wh with
  | nil =>
    intro p hp
    cases hp
  | cons q rest ih =>
    rw [List.map_cons, List.nodup_cons] at hnd
    intro p hp
    rcases List.mem_cons.mp hp with hpq | hp2
    · subst hpq
      constructor
      · intro rows hr
        show whGet (batchLoop remote
          (syncOne remote wh p.1 (resolveTarget p)).wh rest).wh
            (resolveTarget p) = some rows
        rw [batchLoop_wh_untouched remote _ rest (resolveTarget p) hnd.1,
          syncOne_wh_some remote wh p.1 (resolveTarget p) rows hr,
          whGet_whSet_self]
      · intro hr
        show whGet (batchLoop remote
          (syncOne remote wh p.1 (resolveTarget p)).wh rest).wh
            (resolveTarget p) = whGet wh (resolveTarget p)
        rw [batchLoop_wh_untouched remote _ rest (resolveTarget p) hnd.1,
          syncOne_wh_none remote wh p.1 (resolveTarget p) hr]
    · have hne : resolveTarget p ≠ resolveTarget q := by
        intro he
        exact hnd.1 (he ▸ List.mem_map_of_mem resolveTarget hp2)
      have h2 := ih (syncOne remote wh q.1 (resolveTarget q)).wh hnd.2 p hp2
      constructor
      · intro rows hr
        exact h2.1 rows hr
      · intro hr
        show whGet (batchLoop remote
          (syncOne remote wh q.1 (resolveTarget q)).wh rest).wh
            (resolveTarget p) = whGet wh (resolveTarget p)
        rw [h2.2 hr]
        cases hrq : remote q.1 with
        | none => rw [syncOne_wh_none remote wh q.1 (resolveTarget q) hrq]
        | some rows2 =>
          rw [syncOne_wh_some remote wh q.1 (resolveTarget q) rows2 hrq,
            whGet_whSet_ne wh (resolveTarget q) rows2 (resolveTarget p) hne]

/-- Claim C4: in a batch over pairwise distinct targets, fail_count and
success_count count the failing and succeeding tables; every succeeding
table's rows stay committed in the final warehouse, and every failing table's
target is left exactly as before the call. -/
theorem C4_partial_failure (remote : String → Option (List Row))
    (wh : Warehouse) (ts : List (String × Option String))
    (hnd : (ts.map resolveTarget).Nodup) :
    ((syncMultiple remote wh ts).1.fail_count =
      ts.countP (fun p => (remote p.1).isNone)) ∧
    ((syncMultiple remote wh ts).1.success_count =
      ts.countP (fun p => (remote p.1).isSome)) ∧
    (∀ p ∈ ts,
      (∀ rows, remote p.1 = some rows →
        whGet (syncMultiple remote wh ts).2 (resolveTarget p) = some rows) ∧
      (remote p.1 = none →
        whGet (syncMultiple remote wh ts).2 (resolveTarget p) =
          whGet wh (resolveTarget p))) := by
  exact ⟨batchLoop_fail_countP remote wh ts,
    batchLoop_success_countP remote wh ts,
    batchLoop_wh_spec remote wh ts hnd⟩

/-- Witness for C4 on tables A (fails), B (succeeds), C (succeeds): one
failure, two successes, B's rows committed and A's pre-call contents kept. -/
theorem C4_witness :
    (demoTables.map resolveTarget).Nodup ∧
    (syncMultiple demoRemote demoWh demoTables).1.fail_count = 1 ∧
    (syncMultiple demoRemote demoWh demoTables).1.success_count = 2 ∧
    whGet (syncMultiple demoRemote demoWh demoTables).2 "B" = some [["b1"]] ∧
    whGet (syncMultiple demoRemote demoWh demoTables).2 "A" =
      whGet demoWh "A" := by
  have h := C4_partial_failure demoRemote demoWh demoTables (by decide)
  refine ⟨by decide, h.1.trans (by decide), h.2.1.trans (by decide), ?_, ?_⟩
  · exact (h.2.2 ("B", none) (by decide)).1 [["b1"]] (by decide)
  · exact (h.2.2 ("A", none) (by decide)).2 (by decide)

/-- The minutes a task fires at form a sublist of the polled minutes. -/
theorem schedulerRun_sublist (r : Recurrence) (st : TaskState)
    (ticks : List (TimePoint × Bool)) :
    (schedulerRun r st ticks).Sublist (ticks.map Prod.fst) := by
  induction ticks generalizing st with
  | nil => simp [schedulerRun]
  | cons tb rest ih =>
    show ((if (tick r tb.2 tb.1 st).2 then [tb.1] else []) ++
      schedulerRun r (tick r tb.2 tb.1 st).1 rest).Sublist
        (tb.1 :: rest.map Prod.fst)
    by_cases h : (tick r tb.2 tb.1 st).2
    · rw [if_pos h]
      exact List.Sublist.cons₂ tb.1 (ih (tick r tb.2 tb.1 st).1)
    · rw [if_neg h]
      exact List.Sublist.cons tb.1 (ih (tick r tb.2 tb.1 st).1)

/-- Every minute a task fires at matches its recurrence descriptor. -/
theorem schedulerRun_matched (r : Recurrence) (st : TaskState)
    (ticks : List (TimePoint × Bool)) :
    ∀ tp ∈ schedulerRun r st ticks, r.matchesAt tp = true := by
  induction ticks generalizing st with
  | nil =>
    intro tp htp
    cases htp
  | cons tb rest ih =>
    intro tp htp
    cases st with
    | running =>
      simp [schedulerRun, tick] at htp
      exact ih _ tp htp
    | idle =>
      by_cases hm : r.matchesAt tb.1 = true
      · simp [schedulerRun, tick, hm] at htp
        rcases htp with h1 | h1
        · rw [h1]
          exact hm
        · exact ih _ tp h1
      · simp [schedulerRun, tick, hm] at htp
        exact ih _ tp htp

/-- Claim C5: over any sequence of polls of pairwise distinct minutes, a task
fires at most once per minute and only at minutes matching its descriptor,
and a poll that finds the task Running never fires it (the occurrence is
skipped, nothing is queued). -/
theorem C5_scheduler_fires (r : Recurrence) (st : TaskState)
    (ticks : List (TimePoint × Bool))
    (h : (ticks.map Prod.fst).Nodup) :
    (schedulerRun r st ticks).Nodup ∧
    (∀ tp ∈ schedulerRun r st ticks,
      r.matchesAt tp = true ∧ tp ∈ ticks.map Prod.fst) ∧
    (∀ (c : Bool) (now : TimePoint),
      (tick r c now TaskState.running).2 = false) := by
  refine ⟨h.sublist (schedulerRun_sublist r st ticks), ?_, fun c now => rfl⟩
  intro tp htp
  exact ⟨schedulerRun_matched r st ticks tp htp,
    (schedulerRun_sublist r st ticks).subset htp⟩

/-- Witness for C5: a daily 03:00 task polled at 02:59, 03:00 and 03:01 fires
exactly at 03:00. -/
theorem C5_witness :
    (([((⟨1, 1, 2, 59⟩ : TimePoint), false), (⟨1, 1, 3, 0⟩, false),
        (⟨1, 1, 3, 1⟩, false)].map Prod.fst).Nodup) ∧
    (schedulerRun (Recurrence.daily 3 0) TaskState.idle
      [((⟨1, 1, 2, 59⟩ : TimePoint), false), (⟨1, 1, 3, 0⟩, false),
        (⟨1, 1, 3, 1⟩, false)]).Nodup ∧
    schedulerRun (Recurrence.daily 3 0) TaskState.idle
      [((⟨1, 1, 2, 59⟩ : TimePoint), false), (⟨1, 1, 3, 0⟩, false),
        (⟨1, 1, 3, 1⟩, false)] = [⟨1, 1, 3, 0⟩] := by
  have h := C5_scheduler_fires (Recurrence.daily 3 0) TaskState.idle
    [((⟨1, 1, 2, 59⟩ : TimePoint), false), (⟨1, 1, 3, 0⟩, false),
      (⟨1, 1, 3, 1⟩, false)] (by decide)
  exact ⟨by decide, h.1, by decide⟩

/-- Updating a duplicate in place keeps the triple column of the task list. -/
theorem createTask_triples_of_dup (tasks : List SyncTask) (d : SyncTask)
    (hd : ∃ t ∈ tasks, t.triple = d.triple) :
    (createTask tasks d).map SyncTask.triple = tasks.map SyncTask.triple := by
  rw [createTask, if_pos hd, List.map_map]
  congr 1
  funext t
  by_cases ht : t.triple = d.triple
  · show SyncTask.triple (if t.triple = d.triple then _ else t) = t.triple
    rw [if_pos ht]
    exact ht.symm
  · show SyncTask.triple (if t.triple = d.triple then _ else t) = t.triple
    rw [if_neg ht]

/-- Claim C6: when the task list has pairwise distinct triples, Create keeps
them pairwise distinct; a definition duplicating an existing triple updates
in place, leaving the list length unchanged, and the created triple is listed
afterwards. -/
theorem C6_create_updates_duplicate (tasks : List SyncTask) (d : SyncTask)
    (h : (tasks.map SyncTask.triple).Nodup) :
    ((createTask tasks d).map SyncTask.triple).Nodup ∧
    ((∃ t ∈ tasks, t.triple = d.triple) →
      (createTask tasks d).length = tasks.length) ∧
    d.triple ∈ (createTask tasks d).map SyncTask.triple := by
  by_cases hd : ∃ t ∈ tasks, t.triple = d.triple
  · have hmap := createTask_triples_of_dup tasks d hd
    refine ⟨hmap ▸ h, fun _ => ?_, ?_⟩
    · rw [createTask, if_pos hd, List.length_map]
    · rcases hd with ⟨t, ht, htr⟩
      rw [hmap, ← htr]
      exact List.mem_map_of_mem SyncTask.triple ht
  · have hnotin : d.triple ∉ tasks.map SyncTask.triple := by
      intro hmem
      rcases List.mem_map.mp hmem with ⟨t, ht, htr⟩
      exact hd ⟨t, ht, htr⟩
    rw [createTask, if_neg hd]
    refine ⟨?_, fun hex => absurd hex hd, ?_⟩
    · rw [List.map_append, List.map_cons, List.map_nil, List.nodup_append]
      refine ⟨h, List.nodup_singleton d.triple, ?_⟩
      intro x hx hx2
      rw [List.mem_singleton.mp hx2] at hx
      exact hnotin hx
    · simp

/-- Witness for C6: creating demoDup, which duplicates demoTask1's triple,
over the two-task list keeps the triples distinct and the length at two. -/
theorem C6_witness :
    (([demoTask1, demoTask2].map SyncTask.triple).Nodup) ∧
    (((createTask [demoTask1, demoTask2] demoDup).map SyncTask.triple).Nodup) ∧
    (createTask [demoTask1, demoTask2] demoDup).length = 2 := by
  have h := C6_create_updates_duplicate [demoTask1, demoTask2] demoDup
    (by decide)
  exact ⟨by decide, h.1, h.2.1 ⟨demoTask1, by decide, by decide⟩⟩

/-- Claim C7: completing a sync of a table already present in the metadata
registry changes no entry's description or display name, while every entry for
that table gets the fresh auto_description and analyzed_at. -/
theorem C7_sync_preserves_description (reg : List TableMetadataEntry)
    (table newAuto : String) (now : Nat)
    (h : ∃ e ∈ reg, e.table_name = table) :
    ((metadataOnSyncComplete reg table newAuto now).map
        TableMetadataEntry.description =
      reg.map TableMetadataEntry.description) ∧
    ((metadataOnSyncComplete reg table newAuto now).map
        TableMetadataEntry.display_name =
      reg.map TableMetadataEntry.display_name) ∧
    (∀ e2 ∈ metadataOnSyncComplete reg table newAuto now,
      e2.table_name = table →
        e2.auto_description = newAuto ∧ e2.analyzed_at = now) := by
  refine ⟨?_, ?_, ?_⟩
  · rw [metadataOnSyncComplete, if_pos h, List.map_map]
    congr 1
    funext e
    show TableMetadataEntry.description
        (if e.table_name = table then refreshOnSync e newAuto now else e) =
      e.description
    by_cases ht : e.table_name = table
    · rw [if_pos ht]
      rfl
    · rw [if_neg ht]
  · rw [metadataOnSyncComplete, if_pos h, List.map_map]
    congr 1
    funext e
    show TableMetadataEntry.display_name
        (if e.table_name = table then refreshOnSync e newAuto now else e) =
      e.display_name
    by_cases ht : e.table_name = table
    · rw [if_pos ht]
      rfl
    · rw [if_neg ht]
  · intro e2 he2 ht2
    rw [metadataOnSyncComplete, if_pos h] at he2
    rcases List.mem_map.mp he2 with ⟨e, he, hfe⟩
    by_cases ht : e.table_name = table
    · rw [← hfe, if_pos ht]
      exact ⟨rfl, rfl⟩
    · rw [← hfe, if_neg ht] at ht2
      exact absurd ht2 ht

/-- Witness for C7: refreshing the orders table keeps its user-written
description while auto_description is renewed. -/
theorem C7_witness :
    (∃ e ∈ [demoMeta], e.table_name = "orders") ∧
    ((metadataOnSyncComplete [demoMeta] "orders" "new auto" 99).map
      TableMetadataEntry.description = ["user written"]) ∧
    (∀ e2 ∈ metadataOnSyncComplete [demoMeta] "orders" "new auto" 99,
      e2.table_name = "orders" →
        e2.auto_description = "new auto" ∧ e2.analyzed_at = 99) := by
  have h := C7_sync_preserves_description [demoMeta] "orders" "new auto" 99
    ⟨demoMeta, by decide, by decide⟩
  exact ⟨⟨demoMeta, by decide, by decide⟩, h.1.trans (by decide), h.2.2⟩

end SMatrix


